import Mathlib

/-!
Verification of the Growth Track signup pipeline (`src/index.js` of
nathanielsenje/growthtrack-automator).

The file shallowly embeds the pipeline's logic in Lean:

* the HTML-table field extraction of `extractSignupInfo` (lines 124-179),
  including a faithful model of the three JavaScript regular expressions
  of lines 142-146 (pattern
  `<td valign="top">LABEL<\/td>\s*<td>([^<]+)<\/td>` with the `i` flag,
  leftmost-match semantics of `String.prototype.match`);
* the date rendering of `formatDate` (lines 182-190):
  `toLocaleDateString` with locale `en-ZA`, options
  `{year: numeric, month: long, day: numeric, timeZone: Africa/Johannesburg}`,
  which under CLDR (skeleton `yMMMMd` of `en-ZA`/`en-001`) renders
  "d MMMM y" in the fixed UTC+2 zone (Africa/Johannesburg has no DST);
* the Gmail scan of `queryEmails` (lines 70-122): two `messages.list`
  calls with query strings `subject:"Growth Track Signup" is:unread` and
  `subject:"Growth Track Sign Up Form" is:unread`, each with
  `maxResults: 100` and no pagination, the second tried only when the
  first returns no messages; the seven-day cutoff computed on lines
  75-77 never appears in either query string;
* the spreadsheet state of the processing loop in `main`
  (lines 450-507) together with `isDuplicateEntry` (lines 434-447),
  `saveToGoogleSheets` (lines 325-341) and `createOrGetSpreadsheet`
  (lines 192-323), modelled as explicit state passing over the list of
  sheet rows, with a counter for how many times store resolution runs;
* the report dispatch of `sendEmail` (lines 343-410) and its gating in
  `main` (lines 495-500), modelled as an event trace over the possible
  failure points of the `try`/`catch` block.
-/

namespace GrowthTrack

/-! ## JavaScript character and string semantics

`jsSpace` models the character class `\s` of JavaScript regular
expressions and the character set stripped by `String.prototype.trim`
(WhiteSpace and LineTerminator productions; we carry the ASCII members
plus NO-BREAK SPACE and ZERO WIDTH NO-BREAK SPACE, the ones that can
occur in mail bodies). -/

def jsSpace (c : Char) : Bool :=
  c == ' ' || c == '\t' || c == '\n' || c == '\r' ||
  c == '\x0b' || c == '\x0c' || c == ' ' || c == '﻿'

/-- JavaScript `String.prototype.trim`: strip leading and trailing
whitespace. -/
def jsTrim (s : List Char) : List Char :=
  ((s.dropWhile jsSpace).reverse.dropWhile jsSpace).reverse

/-- Case-insensitive character comparison, as performed by a JavaScript
regular expression with the `i` flag on ASCII literals. -/
def ciEq (a b : Char) : Bool :=
  a.toLower == b.toLower

/-- Match the pattern characters `p` case-insensitively against an
initial segment of `s`; on success return the remainder of `s`. -/
def ciStrip : List Char → List Char → Option (List Char)
  | [], s => some s
  | _ :: _, [] => none
  | p :: ps, c :: cs => if ciEq p c then ciStrip ps cs else none

/-! ## The extraction patterns (src/index.js lines 141-146)

Each pattern has the shape
`<td valign="top">LABEL<\/td>\s*<td>([^<]+)<\/td>` with flag `i`.
Matching such a pattern at a fixed position is deterministic despite
backtracking: `\s*` is followed by `<`, which is not a whitespace
character, and `[^<]+` is followed by `<`, which the class excludes, so
the greedy maximal munch is the only candidate at each position. -/

def tdOpen : List Char := "<td valign=\"top\">".toList

def tdClose : List Char := "</td>".toList

def cellOpen : List Char := "<td>".toList

def nameLabel : List Char := "Full Name:".toList

def phoneLabel : List Char := "Phone:".toList

def emailLabel : List Char := "Email:".toList

/-- Attempt the pattern for `label` at the start of `s`; on success
return the text captured by `([^<]+)`. -/
def matchAt (label : List Char) (s : List Char) : Option (List Char) :=
  match ciStrip (tdOpen ++ label ++ tdClose) s with
  | none => none
  | some s1 =>
    match ciStrip cellOpen (s1.dropWhile jsSpace) with
    | none => none
    | some s3 =>
      let v := s3.takeWhile (fun c => c != '<')
      if v.isEmpty then none
      else
        match ciStrip tdClose (s3.dropWhile (fun c => c != '<')) with
        | none => none
        | some _ => some v

/-- Leftmost match: JavaScript `body.match(pattern)` tries the pattern
at positions 0, 1, 2, … and returns the first success. -/
def firstMatch (label : List Char) : List Char → Option (List Char)
  | [] => none
  | c :: cs =>
    match matchAt label (c :: cs) with
    | some v => some v
    | none => firstMatch label cs

/-- One iteration of the extraction loop of src/index.js lines 151-160:
`match` then `.trim()` on the captured group, or the empty string when
the pattern does not match. -/
def extractField (label : List Char) (body : List Char) : List Char :=
  match firstMatch label body with
  | some v => jsTrim v
  | none => []

/-! ## Date rendering (src/index.js lines 162-165 and 182-190)

`formatDate` calls `toLocaleDateString('en-ZA', {year: 'numeric',
month: 'long', day: 'numeric', timeZone: 'Africa/Johannesburg'})`.
Africa/Johannesburg is UTC+2 with no daylight saving, so the civil date
is the Gregorian date of `epochMillis + 2h`.  The CLDR `en-ZA` locale
(inheriting `en-001`) renders the requested skeleton `yMMMMd` as
"d MMMM y": day of month, space, long month name, space, four-digit
year — e.g. "19 February 2025". -/

def dayMs : Nat := 86400000

def joburgOffsetMs : Nat := 7200000

/-- Convert a day count since 1970-01-01 to a Gregorian civil date
`(year, month, day)` (standard era-based algorithm, valid for all day
counts at or after the epoch). -/
def civilFromDays (z : Nat) : Nat × Nat × Nat :=
  let z' := z + 719468
  let era := z' / 146097
  let doe := z' % 146097
  let yoe := (doe - doe / 1460 + doe / 36524 - doe / 146096) / 365
  let y := yoe + era * 400
  let doy := doe - (365 * yoe + yoe / 4 - yoe / 100)
  let mp := (5 * doy + 2) / 153
  let d := doy - (153 * mp + 2) / 5 + 1
  let m := if mp < 10 then mp + 3 else mp - 9
  (if m ≤ 2 then y + 1 else y, m, d)

/-- Long English month names, as produced by `month: 'long'` in the
`en-ZA` locale. -/
def monthName : Nat → String
  | 1 => "January"
  | 2 => "February"
  | 3 => "March"
  | 4 => "April"
  | 5 => "May"
  | 6 => "June"
  | 7 => "July"
  | 8 => "August"
  | 9 => "September"
  | 10 => "October"
  | 11 => "November"
  | 12 => "December"
  | _ => ""

/-- Model of `formatDate` (src/index.js lines 182-190) applied to a
message receipt time in epoch milliseconds. -/
def formatDate (epochMillis : Nat) : String :=
  let ymd := civilFromDays ((epochMillis + joburgOffsetMs) / dayMs)
  Nat.repr ymd.2.2 ++ " " ++ monthName ymd.2.1 ++ " " ++ Nat.repr ymd.1

/-- The date format the specification describes — "Month D, YYYY", long
month name first, then day, then a comma and the four-digit year.  This
definition follows the spec's words, for comparison with `formatDate`,
which follows the source. -/
def specFormatDate (epochMillis : Nat) : String :=
  let ymd := civilFromDays ((epochMillis + joburgOffsetMs) / dayMs)
  monthName ymd.2.1 ++ " " ++ Nat.repr ymd.2.2 ++ ", " ++ Nat.repr ymd.1

/-! ## Record construction (src/index.js lines 148-179) -/

/-- One extracted registration, as returned by `extractSignupInfo`
(lines 173-178). -/
structure SignupRecord where
  date : String
  name : String
  phone : String
  email : String
  deriving DecidableEq, Repr

/-- JavaScript `x || 'Not provided'` on a string `x`: the empty string
is falsy, every other string is truthy. -/
def orSentinel (s : List Char) : String :=
  if s = [] then "Not provided" else String.mk s

/-- Model of `extractSignupInfo` (src/index.js lines 124-179) applied
to the decoded message body and the message's `internalDate` (epoch
milliseconds from the mailbox metadata, line 163).  Each of the three
fields is extracted by its own pattern; the registration date is
computed from `internalDate` only. -/
def extractSignupInfo (body : List Char) (internalDate : Nat) : SignupRecord :=
  { date := formatDate internalDate
    name := orSentinel (extractField nameLabel body)
    phone := orSentinel (extractField phoneLabel body)
    email := orSentinel (extractField emailLabel body) }

/-! ## The mailbox scanner (src/index.js lines 70-122)

`queryEmails` issues `gmail.users.messages.list` with the query string
`subject:"Growth Track Signup" is:unread` and `maxResults: 100`; when
that returns no messages it retries with
`subject:"Growth Track Sign Up Form" is:unread`, again with
`maxResults: 100`.  Neither query string contains an `after:` term: the
seven-day cutoff computed on lines 75-77 is never used.  No
`nextPageToken` is followed, so at most one page of 100 results is ever
seen.  We model a mailbox as a list of messages and `messages.list` as
filter-then-truncate. -/

structure MailMessage where
  id : Nat
  subject : String
  unread : Bool
  /-- Receipt time, epoch milliseconds (`internalDate`). -/
  internalDate : Nat
  deriving DecidableEq, Repr

/-- The searchable content of a Gmail query string, as assembled by the
source: a quoted subject phrase, an `is:unread` term, and optionally an
`after:` term in epoch seconds — the source never emits one. -/
structure GmailQuery where
  subjectPhrase : String
  unreadOnly : Bool
  afterEpochSecs : Option Nat
  deriving DecidableEq, Repr

/-- Whether the character sequence `pat` occurs contiguously in `s`. -/
def containsSeq (pat : List Char) (s : List Char) : Bool :=
  s.tails.any (fun t => pat.isPrefixOf t)

/-- Whether a message satisfies a Gmail query: the subject phrase
occurs in the subject, the unread flag is set when `is:unread` is
present, and the receipt time is after the cutoff when an `after:` term
is present. -/
def matchesQuery (q : GmailQuery) (m : MailMessage) : Bool :=
  containsSeq q.subjectPhrase.toList m.subject.toList &&
  (!q.unreadOnly || m.unread) &&
  (match q.afterEpochSecs with
   | none => true
   | some a => decide (a * 1000 < m.internalDate))

/-- `gmail.users.messages.list`: the ids of the matching messages,
truncated to the first page of `maxResults`. -/
def gmailList (mbox : List MailMessage) (q : GmailQuery) (maxResults : Nat) :
    List Nat :=
  ((mbox.filter (matchesQuery q)).map (fun m => m.id)).take maxResults

/-- The query of src/index.js line 84: `subject:"Growth Track Signup"
is:unread` — no `after:` term. -/
def querySignup : GmailQuery :=
  { subjectPhrase := "Growth Track Signup", unreadOnly := true,
    afterEpochSecs := none }

/-- The fallback query of src/index.js line 95: `subject:"Growth Track
Sign Up Form" is:unread` — no `after:` term. -/
def queryLegacy : GmailQuery :=
  { subjectPhrase := "Growth Track Sign Up Form", unreadOnly := true,
    afterEpochSecs := none }

/-- Model of `queryEmails` (src/index.js lines 70-122).  `now` is the
run time in epoch milliseconds.  The binding `_after` mirrors the dead
computation of lines 75-77: it appears in neither query. -/
def queryEmails (mbox : List MailMessage) (now : Nat) : List Nat :=
  let _after := (now - 7 * dayMs) / 1000
  let messages := gmailList mbox querySignup 100
  if messages.length = 0 then gmailList mbox queryLegacy 100 else messages

/-- The query whose result `queryEmails` returns: the primary subject
pattern, or the legacy one when the primary query came back empty. -/
def selectedQuery (mbox : List MailMessage) : GmailQuery :=
  if (gmailList mbox querySignup 100).length = 0 then queryLegacy
  else querySignup

/-- The spec's description of the scan, following its words: an ordered
list of queries tried in priority order, stopping at the first
non-empty result (or the empty list at the end of the list).  For
comparison with `queryEmails`, which follows the source. -/
def firstNonEmptyResult (f : GmailQuery → List Nat) :
    List GmailQuery → List Nat
  | [] => []
  | q :: qs =>
    let r := f q
    if r.length = 0 then firstNonEmptyResult f qs else r

/-! ## The store and the processing loop
(src/index.js lines 434-447, 450-507)

The destination spreadsheet is modelled as its list of rows (each row a
list of cell strings; the header `Registration Date / Full Name /
Phone / Email` is the first row).  `RunState` carries the rows together
with the observable counters of `main`: how many times
`createOrGetSpreadsheet` has executed (it runs in `main` before the
first write of the run, line 469, and again inside every
`saveToGoogleSheets` call, line 328 — there is no memoisation), the
`processedCount` and `skippedCount` counters, and which messages have
been marked read. -/

/-- The row appended by `saveToGoogleSheets` (src/index.js line 336):
`[data.date, data.name, data.phone, data.email]`. -/
def rowOf (r : SignupRecord) : List String :=
  [r.date, r.name, r.phone, r.email]

/-- Model of `isDuplicateEntry` (src/index.js lines 434-447): fetch all
rows (header included) and test `row[1] === data.name && row[2] ===
data.phone && row[3] === data.email`; a missing cell (`undefined`)
never equals a string. -/
def isDuplicateEntry (rows : List (List String)) (data : SignupRecord) :
    Bool :=
  rows.any (fun row =>
    row.get? 1 == some data.name &&
    row.get? 2 == some data.phone &&
    row.get? 3 == some data.email)

structure RunState where
  rows : List (List String)
  /-- Whether `main`'s `spreadsheetId` variable is set (line 468). -/
  resolved : Bool
  /-- How many times `createOrGetSpreadsheet` has executed. -/
  resolutions : Nat
  processedCount : Nat
  skippedCount : Nat
  /-- Ids already passed to `markEmailAsRead`. -/
  readMessages : List Nat
  deriving DecidableEq, Repr

/-- The state at the top of `main` (lines 456-458): no rows beyond
whatever the store already holds, `spreadsheetId` unset, no work done.
-/
def initialState (rows : List (List String)) : RunState :=
  { rows := rows, resolved := false, resolutions := 0,
    processedCount := 0, skippedCount := 0, readMessages := [] }

/-- One iteration of the processing loop of `main` (src/index.js lines
462-491) on the transport-success path: resolve the store if `main`'s
`spreadsheetId` is still unset (lines 468-470), run the duplicate check
(line 473), either skip (lines 474-476) or save — `saveToGoogleSheets`
resolves the store again (line 328) and appends the row (lines
331-338) — and finally mark the message read (line 485). -/
def processMessage (st : RunState) (msg : Nat × SignupRecord) : RunState :=
  let st1 :=
    if st.resolved then st
    else { st with resolved := true, resolutions := st.resolutions + 1 }
  let st2 :=
    if isDuplicateEntry st1.rows msg.2 then
      { st1 with skippedCount := st1.skippedCount + 1 }
    else
      { st1 with
        resolutions := st1.resolutions + 1,
        rows := st1.rows ++ [rowOf msg.2],
        processedCount := st1.processedCount + 1 }
  { st2 with readMessages := st2.readMessages ++ [msg.1] }

/-- The whole processing loop over the scanned messages (each given by
its id and the record extracted from it). -/
def runLoop (st : RunState) (msgs : List (Nat × SignupRecord)) : RunState :=
  msgs.foldl processMessage st

/-! ## Report dispatch (src/index.js lines 343-410 and 495-500)

`sendEmail` exports the spreadsheet, writes the bytes to the temporary
file `GrowthTrackSignups.xlsx`, sends the mail with the file attached,
and unlinks the file; on any failure the `catch` block unlinks the file
(ignoring an error from the unlink of a file that was never written)
and rethrows.  We model the possible failure points of the `try` block
and record, for each, the number of export and send calls, whether the
temporary file exists after `sendEmail` returns or throws, and whether
it threw.  A failed write is modelled as leaving no file. -/

inductive DispatchOutcome where
  | success
  | exportFail
  | writeFail
  | sendFail
  deriving DecidableEq, Repr

structure DispatchTrace where
  exportCalls : Nat
  sendCalls : Nat
  tempFileExists : Bool
  threw : Bool
  deriving DecidableEq, Repr

/-- The `fs.unlink` calls of lines 400 and 404: after the attempt the
file does not exist — either the unlink removed it, or it was never
there and the error is ignored by the handler. -/
def afterUnlink (_exists : Bool) : Bool := false

/-- Model of one `sendEmail` call (src/index.js lines 343-410), by
failure point of its `try` block. -/
def sendEmailRun : DispatchOutcome → DispatchTrace
  | .exportFail =>
    { exportCalls := 1, sendCalls := 0,
      tempFileExists := afterUnlink false, threw := true }
  | .writeFail =>
    { exportCalls := 1, sendCalls := 0,
      tempFileExists := afterUnlink false, threw := true }
  | .sendFail =>
    { exportCalls := 1, sendCalls := 1,
      tempFileExists := afterUnlink true, threw := true }
  | .success =>
    { exportCalls := 1, sendCalls := 1,
      tempFileExists := afterUnlink true, threw := false }

/-- No dispatch at all: no calls, no file. -/
def emptyTrace : DispatchTrace :=
  { exportCalls := 0, sendCalls := 0, tempFileExists := false,
    threw := false }

/-- The gating of src/index.js lines 495-500: `sendEmail` runs exactly
when `processedCount > 0`. -/
def dispatchPhase (processedCount : Nat) (o : DispatchOutcome) :
    DispatchTrace :=
  if processedCount > 0 then sendEmailRun o else emptyTrace

/-- A whole run of `main` on the transport-success path of the loop:
the processing loop, then the gated report dispatch. -/
def mainRun (st : RunState) (msgs : List (Nat × SignupRecord))
    (o : DispatchOutcome) : RunState × DispatchTrace :=
  let final := runLoop st msgs
  (final, dispatchPhase final.processedCount o)

/-! ## Concrete test fixtures -/

/-- The header row created with the spreadsheet (src/index.js lines
256-259). -/
def headerRow : List String :=
  ["Registration Date", "Full Name", "Phone", "Email"]

/-- A sample extracted record. -/
def sampleRecord : SignupRecord :=
  { date := "1 May 2025", name := "Ann Smith", phone := "+255 700 000 001",
    email := "ann@example.org" }

/-- A second sample record, differing from `sampleRecord` in one field.
-/
def otherRecord : SignupRecord :=
  { date := "1 May 2025", name := "Ann Smith", phone := "+255 700 000 002",
    email := "ann@example.org" }

/-- An unread message with the primary subject, received at the epoch —
far more than seven days before any contemporary run time. -/
def staleMessage : MailMessage :=
  { id := 1, subject := "Growth Track Signup", unread := true,
    internalDate := 0 }

/-- A run time 30 days after `staleMessage` was received. -/
def lateNow : Nat := 30 * dayMs

/-- The (name, phone, email) cells of a stored row, as compared by
`isDuplicateEntry`. -/
def tripleOf (row : List String) :
    Option String × Option String × Option String :=
  (row.get? 1, row.get? 2, row.get? 3)

/-- No two non-header rows (the header is the first row) carry the same
(name, phone, email) triple. -/
def distinctTriples (rows : List (List String)) : Prop :=
  (rows.drop 1).Pairwise (fun r s => tripleOf r ≠ tripleOf s)

instance (rows : List (List String)) : Decidable (distinctTriples rows) := by
  unfold distinctTriples
  infer_instance

/-- A body carrying only the name row: the phone and email patterns
have no match. -/
def nameOnlyBody : List Char :=
  "<td valign=\"top\">Full Name:</td><td>Ann</td>".toList

/-- A mailbox holding 101 unread messages with the primary subject. -/
def bigMailbox : List MailMessage :=
  (List.range 101).map (fun i =>
    { id := i + 1, subject := "Growth Track Signup", unread := true,
      internalDate := 0 })

/-- The 101st message of `bigMailbox`. -/
def overflowMessage : MailMessage :=
  { id := 101, subject := "Growth Track Signup", unread := true,
    internalDate := 0 }

/-- A well-formed labeled two-cell table row with whitespace `ws`
between the cells and value-cell contents `v` — exactly the shape the
patterns of src/index.js lines 142-146 accept. -/
def mkRow (label ws v : List Char) : List Char :=
  tdOpen ++ label ++ tdClose ++ ws ++ cellOpen ++ v ++ tdClose

/-- Whether the pattern's initial literal
`<td valign="top">LABEL</td>` matches (case-insensitively) at the start
of `s`.  Any successful `matchAt` starts this way, so a position where
`headMatches` fails can never produce a match. -/
def headMatches (label : List Char) (s : List Char) : Bool :=
  (ciStrip (tdOpen ++ label ++ tdClose) s).isSome

/-- A body with all three labeled rows present and well-formed, but a
whitespace-only name cell. -/
def blankBody : List Char :=
  ("<td valign=\"top\">Full Name:</td><td> </td>" ++
   "<td valign=\"top\">Phone:</td><td>1</td>" ++
   "<td valign=\"top\">Email:</td><td>a@b.c</td>").toList

/-- A well-formed body: three labeled rows with non-blank cells, inside
surrounding markup. -/
def fullBody : List Char :=
  ("<table><tr><td valign=\"top\">Full Name:</td> <td> John Doe </td>" ++
   "</tr><tr><td valign=\"top\">Phone:</td><td>+255 747 000 000</td>" ++
   "</tr><tr><td valign=\"top\">Email:</td>\n<td>j@x.org</td></tr></table>"
  ).toList

/-- What follows the name row of `fullBody`. -/
def afterNameRow : List Char :=
  ("</tr><tr><td valign=\"top\">Phone:</td><td>+255 747 000 000</td>" ++
   "</tr><tr><td valign=\"top\">Email:</td>\n<td>j@x.org</td></tr></table>"
  ).toList

/-- What follows the phone row of `fullBody`. -/
def afterPhoneRow : List Char :=
  ("</tr><tr><td valign=\"top\">Email:</td>\n<td>j@x.org</td></tr></table>"
  ).toList

/-- What follows the email row of `fullBody`. -/
def afterEmailRow : List Char := "</tr></table>".toList

/-! ## Claims -/

/-- C1: the specification requires the scanner to restrict the query to
the trailing 7-day window, so that no message older than 7 days is
returned.  The source computes the cutoff (lines 75-77, under the
comment "Calculate date range (7 days ago to now)") but never puts an
`after:` term into either query string, so a matching unread message
received 30 days before the run is still returned: the code contradicts
its own stated intent. -/
theorem queryEmails_returns_stale_message :
    queryEmails [staleMessage] lateNow = [staleMessage.id] ∧
    staleMessage.internalDate + 7 * dayMs < lateNow := by
  decide

/-- C2 counterexample: a run over a single message whose record is not
yet in the store executes store resolution twice — once in `main`
before the duplicate check (line 469) and once more inside
`saveToGoogleSheets` (line 328) — refuting "resolution is executed at
most once per run". -/
theorem resolution_runs_twice_on_one_accepted_message :
    ¬ (runLoop (initialState [headerRow]) [(1, sampleRecord)]).resolutions ≤ 1 := by
  decide

theorem processMessage_resolved (st : RunState) (m : Nat × SignupRecord) :
    (processMessage st m).resolved = true := by
  simp only [processMessage]
  by_cases h : st.resolved = true <;>
    by_cases h2 : isDuplicateEntry st.rows m.2 = true <;>
      simp [h, h2]

theorem runLoop_resolutions_of_resolved (msgs : List (Nat × SignupRecord)) :
    ∀ st : RunState, st.resolved = true →
      (runLoop st msgs).resolutions + st.processedCount =
        st.resolutions + (runLoop st msgs).processedCount := by
  induction msgs with
  | nil => intro st _; rfl
  | cons m rest ih =>
    intro st hres
    have hstep := ih (processMessage st m) (processMessage_resolved st m)
    have harith :
        (processMessage st m).resolutions + st.processedCount =
          st.resolutions + (processMessage st m).processedCount := by
      unfold processMessage
      simp [hres]
      split
      · simp
      · simp
        omega
    calc (runLoop (processMessage st m) rest).resolutions + st.processedCount
        = (runLoop (processMessage st m) rest).resolutions +
            (processMessage st m).processedCount +
            st.processedCount - (processMessage st m).processedCount := by
          omega
      _ = (processMessage st m).resolutions +
            (runLoop (processMessage st m) rest).processedCount +
            st.processedCount - (processMessage st m).processedCount := by
          rw [hstep]
      _ = st.resolutions + (runLoop (processMessage st m) rest).processedCount := by
          omega

/-- C2 amended: store resolution is executed once in `main` before the
first message plus once inside every accepted write, i.e.
`1 + processedCount` times on any run with at least one message (and
never on an empty run); every execution is idempotent against an
unchanged store, so all of them resolve the same identifier. -/
theorem resolution_count_one_plus_accepted
    (rows : List (List String)) (msgs : List (Nat × SignupRecord)) :
    (runLoop (initialState rows) msgs).resolutions =
      (if msgs.isEmpty then 0 else 1) +
        (runLoop (initialState rows) msgs).processedCount := by
  cases msgs with
  | nil => rfl
  | cons m rest =>
    have h1 := runLoop_resolutions_of_resolved rest
      (processMessage (initialState rows) m)
      (processMessage_resolved (initialState rows) m)
    have h2 : (processMessage (initialState rows) m).resolutions =
        1 + (processMessage (initialState rows) m).processedCount := by
      unfold processMessage initialState
      simp
      split <;> simp
    have h3 : (runLoop (initialState rows) (m :: rest)).resolutions =
        (runLoop (processMessage (initialState rows) m) rest).resolutions := rfl
    have h4 : (runLoop (initialState rows) (m :: rest)).processedCount =
        (runLoop (processMessage (initialState rows) m) rest).processedCount := rfl
    have h5 : (if (m :: rest : List (Nat × SignupRecord)).isEmpty
        then 0 else 1) = 1 := rfl
    rw [h3, h4, h5]
    omega

/-- C3 counterexample: at receipt time 0 (epoch) the source renders
"1 January 1970" — day first, no comma — not the spec's
"Month D, YYYY" rendering "January 1, 1970". -/
theorem formatDate_is_not_month_first :
    formatDate 0 = "1 January 1970" ∧ specFormatDate 0 = "January 1, 1970" ∧
    formatDate 0 ≠ specFormatDate 0 := by
  decide

/-- C3 amended: the record's date is computed solely from the message's
receipt timestamp (it is unchanged under any change of the body), in
the fixed zone UTC+2 (Africa/Johannesburg), but formatted day-first as
"D Month YYYY" (the CLDR `en-ZA` rendering), not month-first. -/
theorem date_from_timestamp_day_first
    (body other : List Char) (t : Nat) :
    (extractSignupInfo body t).date = (extractSignupInfo other t).date ∧
    (extractSignupInfo body t).date = formatDate t ∧
    formatDate t =
      Nat.repr (civilFromDays ((t + joburgOffsetMs) / dayMs)).2.2 ++ " " ++
        monthName (civilFromDays ((t + joburgOffsetMs) / dayMs)).2.1 ++ " " ++
        Nat.repr (civilFromDays ((t + joburgOffsetMs) / dayMs)).1 := by
  refine ⟨rfl, rfl, rfl⟩

/-- C8: the scanner is the priority-ordered fallback strategy the spec
describes — it equals "try the ordered query list, return the first
non-empty result, else the empty list" instantiated with the primary
subject "Growth Track Signup" followed by the legacy
"Growth Track Sign Up Form". -/
theorem queryEmails_eq_firstNonEmptyResult
    (mbox : List MailMessage) (now : Nat) :
    queryEmails mbox now =
      firstNonEmptyResult (fun q => gmailList mbox q 100)
        [querySignup, queryLegacy] := by
  simp only [queryEmails, firstNonEmptyResult]
  by_cases h : (gmailList mbox querySignup 100).length = 0
  · by_cases h2 : (gmailList mbox queryLegacy 100).length = 0
    · simp [h, h2, List.length_eq_zero.mp h2]
    · simp [h, h2]
  · simp [h]

theorem isDuplicateEntry_iff (rows : List (List String)) (r : SignupRecord) :
    isDuplicateEntry rows r = true ↔
      ∃ row ∈ rows, row.get? 1 = some r.name ∧ row.get? 2 = some r.phone ∧
        row.get? 3 = some r.email := by
  simp [isDuplicateEntry, List.any_eq_true, Bool.and_eq_true, beq_iff_eq,
    and_assoc]

/-- C4: per message on a given store state, an exact match of the
(name, phone, email) triple against any existing row (header included,
plain string equality on cells 1-3) makes the append a no-op while the
message is still marked read; when the triple differs from every row in
at least one field, exactly the one new row is appended and the message
is likewise marked read. -/
theorem duplicate_check_append_or_skip
    (st : RunState) (m : Nat) (r : SignupRecord) :
    ((∃ row ∈ st.rows, row.get? 1 = some r.name ∧
        row.get? 2 = some r.phone ∧ row.get? 3 = some r.email) →
      (processMessage st (m, r)).rows = st.rows ∧
        m ∈ (processMessage st (m, r)).readMessages) ∧
    ((¬ ∃ row ∈ st.rows, row.get? 1 = some r.name ∧
        row.get? 2 = some r.phone ∧ row.get? 3 = some r.email) →
      (processMessage st (m, r)).rows = st.rows ++ [rowOf r] ∧
        m ∈ (processMessage st (m, r)).readMessages) := by
  constructor
  · intro hdup
    have hd : isDuplicateEntry st.rows r = true :=
      (isDuplicateEntry_iff _ _).mpr hdup
    simp only [processMessage]
    by_cases h : st.resolved = true <;> simp [h, hd]
  · intro hnd
    have hd : isDuplicateEntry st.rows r = false := by
      cases hb : isDuplicateEntry st.rows r
      · rfl
      · exact absurd ((isDuplicateEntry_iff _ _).mp hb) hnd
    simp only [processMessage]
    by_cases h : st.resolved = true <;> simp [h, hd]

/-- Witness for C4 at a concrete store and record: `sampleRecord` is
not in the header-only store, so it is appended and message 7 is marked
read. -/
theorem duplicate_check_append_or_skip_witness :
    (¬ ∃ row ∈ (initialState [headerRow]).rows,
        row.get? 1 = some sampleRecord.name ∧
        row.get? 2 = some sampleRecord.phone ∧
        row.get? 3 = some sampleRecord.email) ∧
    ((processMessage (initialState [headerRow]) (7, sampleRecord)).rows =
        (initialState [headerRow]).rows ++ [rowOf sampleRecord] ∧
      7 ∈ (processMessage (initialState [headerRow])
        (7, sampleRecord)).readMessages) :=
  ⟨by decide,
   (duplicate_check_append_or_skip (initialState [headerRow]) 7
      sampleRecord).2 (by decide)⟩

/-! ## C10: the uniqueness invariant -/

theorem tripleOf_rowOf (r : SignupRecord) :
    tripleOf (rowOf r) = (some r.name, some r.phone, some r.email) := rfl

theorem processMessage_rows (st : RunState) (msg : Nat × SignupRecord) :
    (processMessage st msg).rows =
      if isDuplicateEntry st.rows msg.2 then st.rows
      else st.rows ++ [rowOf msg.2] := by
  simp only [processMessage]
  by_cases h : st.resolved = true <;>
    by_cases hd : isDuplicateEntry st.rows msg.2 = true <;> simp [h, hd]

theorem processMessage_distinct (st : RunState) (msg : Nat × SignupRecord)
    (h : distinctTriples st.rows) :
    distinctTriples (processMessage st msg).rows := by
  rw [processMessage_rows]
  by_cases hd : isDuplicateEntry st.rows msg.2 = true
  · simpa [hd] using h
  · have hd' : isDuplicateEntry st.rows msg.2 = false := by
      cases hb : isDuplicateEntry st.rows msg.2
      · rfl
      · exact absurd hb hd
    have hnd : ∀ row ∈ st.rows, tripleOf row ≠ tripleOf (rowOf msg.2) := by
      intro row hrow heq
      apply hd
      refine (isDuplicateEntry_iff _ _).mpr ⟨row, hrow, ?_⟩
      have h1 : tripleOf row =
          (some msg.2.name, some msg.2.phone, some msg.2.email) := by
        rw [heq, tripleOf_rowOf]
      simp only [tripleOf, Prod.mk.injEq] at h1
      exact ⟨h1.1, h1.2.1, h1.2.2⟩
    simp only [hd', if_false]
    cases hrows : st.rows with
    | nil => simp [distinctTriples]
    | cons r rs =>
      have hrs : rs.Pairwise (fun a b => tripleOf a ≠ tripleOf b) := by
        have := h
        rw [hrows] at this
        simpa [distinctTriples] using this
      show ((r :: rs ++ [rowOf msg.2]).drop 1).Pairwise _
      simp only [List.cons_append, List.drop_one, List.tail_cons]
      rw [List.pairwise_append]
      refine ⟨hrs, by simp, ?_⟩
      intro a ha b hb
      have hb' : b = rowOf msg.2 := by simpa using hb
      subst hb'
      exact hnd a (by rw [hrows]; exact List.mem_cons_of_mem r ha)

theorem runLoop_distinct (msgs : List (Nat × SignupRecord)) :
    ∀ st : RunState, distinctTriples st.rows →
      distinctTriples (runLoop st msgs).rows := by
  induction msgs with
  | nil => intro st h; exact h
  | cons m rest ih =>
    intro st h
    exact ih _ (processMessage_distinct st m h)

/-- C10: uniqueness of the (name, phone, email) triple among non-header
rows is an invariant of the processing loop — the duplicate check
re-reads all current rows before each append, so a starting store with
pairwise-distinct triples still has pairwise-distinct triples after the
loop, even when several messages in the run carry the same triple. -/
theorem uniqueness_invariant_of_run (rows : List (List String))
    (msgs : List (Nat × SignupRecord)) (h : distinctTriples rows) :
    distinctTriples (runLoop (initialState rows) msgs).rows :=
  runLoop_distinct msgs (initialState rows) h

/-- Witness for C10: two messages with identical triples in one run,
against a header-only store, leave the store with distinct triples
(only one copy is appended). -/
theorem uniqueness_invariant_of_run_witness :
    distinctTriples [headerRow] ∧
    distinctTriples (runLoop (initialState [headerRow])
      [(1, sampleRecord), (2, sampleRecord)]).rows :=
  ⟨by decide,
   uniqueness_invariant_of_run [headerRow]
     [(1, sampleRecord), (2, sampleRecord)] (by decide)⟩

/-! ## C6: sentinel fallback and field totality -/

theorem orSentinel_ne_empty (s : List Char) : orSentinel s ≠ "" := by
  unfold orSentinel
  split
  · decide
  · next hs =>
    intro h
    exact hs (congrArg String.data h)

theorem space_data : (" " : String).data = [' '] := rfl

theorem append_space_ne_empty (a b c : String) :
    a ++ " " ++ b ++ " " ++ c ≠ "" := by
  intro h
  have h2 := congrArg String.data h
  simp [String.data_append, space_data] at h2

theorem formatDate_ne_empty (t : Nat) : formatDate t ≠ "" :=
  append_space_ne_empty _ _ _

/-- C6: extraction never aborts on missing fields — it is a total
function of the decoded body: a field whose pattern does not match
equals the sentinel "Not provided"; each field is a function of its own
pattern's match alone, so misses elsewhere leave it unchanged; and all
four fields of the returned record are non-empty. -/
theorem missing_fields_default_to_sentinel
    (body other : List Char) (t : Nat) :
    (firstMatch nameLabel body = none →
      (extractSignupInfo body t).name = "Not provided") ∧
    (firstMatch phoneLabel body = none →
      (extractSignupInfo body t).phone = "Not provided") ∧
    (firstMatch emailLabel body = none →
      (extractSignupInfo body t).email = "Not provided") ∧
    (firstMatch nameLabel body = firstMatch nameLabel other →
      (extractSignupInfo body t).name = (extractSignupInfo other t).name) ∧
    (firstMatch phoneLabel body = firstMatch phoneLabel other →
      (extractSignupInfo body t).phone = (extractSignupInfo other t).phone) ∧
    (firstMatch emailLabel body = firstMatch emailLabel other →
      (extractSignupInfo body t).email = (extractSignupInfo other t).email) ∧
    (extractSignupInfo body t).date ≠ "" ∧
    (extractSignupInfo body t).name ≠ "" ∧
    (extractSignupInfo body t).phone ≠ "" ∧
    (extractSignupInfo body t).email ≠ "" := by
  refine ⟨?_, ?_, ?_, ?_, ?_, ?_, ?_, ?_, ?_, ?_⟩
  · intro h; simp [extractSignupInfo, extractField, h, orSentinel]
  · intro h; simp [extractSignupInfo, extractField, h, orSentinel]
  · intro h; simp [extractSignupInfo, extractField, h, orSentinel]
  · intro h; simp [extractSignupInfo, extractField, h]
  · intro h; simp [extractSignupInfo, extractField, h]
  · intro h; simp [extractSignupInfo, extractField, h]
  · exact formatDate_ne_empty t
  · exact orSentinel_ne_empty _
  · exact orSentinel_ne_empty _
  · exact orSentinel_ne_empty _

/-- Witness for C6 at `nameOnlyBody`: the phone pattern does not match,
the phone field is the sentinel, and the name field is still
non-empty. -/
theorem missing_fields_default_to_sentinel_witness :
    firstMatch phoneLabel nameOnlyBody = none ∧
    (extractSignupInfo nameOnlyBody 0).phone = "Not provided" ∧
    (extractSignupInfo nameOnlyBody 0).name ≠ "" := by
  refine ⟨by decide, ?_, ?_⟩
  · exact (missing_fields_default_to_sentinel nameOnlyBody nameOnlyBody
      0).2.1 (by decide)
  · exact (missing_fields_default_to_sentinel nameOnlyBody nameOnlyBody
      0).2.2.2.2.2.2.2.1

/-- C7: the run dispatches a report iff at least one record was
accepted: zero accepted records produce no export and no send; at
least one accepted record triggers exactly one `sendEmail` call, which
performs one export, at most one send (exactly one whenever the
dispatch does not throw), and leaves the temporary export file absent
on the success path and on every failure path. -/
theorem report_dispatch_gating (st : RunState)
    (msgs : List (Nat × SignupRecord)) (o : DispatchOutcome) :
    ((runLoop st msgs).processedCount = 0 →
      (mainRun st msgs o).2 = emptyTrace) ∧
    (0 < (runLoop st msgs).processedCount →
      (mainRun st msgs o).2.exportCalls = 1 ∧
      (mainRun st msgs o).2.sendCalls ≤ 1 ∧
      ((mainRun st msgs o).2.threw = false →
        (mainRun st msgs o).2.sendCalls = 1) ∧
      (mainRun st msgs o).2.tempFileExists = false) := by
  constructor
  · intro h
    simp [mainRun, dispatchPhase, h]
  · intro h
    have hdp : (mainRun st msgs o).2 = sendEmailRun o := by
      simp [mainRun, dispatchPhase, h]
    rw [hdp]
    cases o <;> simp [sendEmailRun, afterUnlink]

/-- Witness for C7: a run accepting one record with a successful
dispatch exports once, sends once, and leaves no temporary file. -/
theorem report_dispatch_gating_witness :
    0 < (runLoop (initialState [headerRow])
        [(1, sampleRecord)]).processedCount ∧
    ((mainRun (initialState [headerRow]) [(1, sampleRecord)]
        DispatchOutcome.success).2.exportCalls = 1 ∧
      (mainRun (initialState [headerRow]) [(1, sampleRecord)]
        DispatchOutcome.success).2.sendCalls ≤ 1 ∧
      ((mainRun (initialState [headerRow]) [(1, sampleRecord)]
          DispatchOutcome.success).2.threw = false →
        (mainRun (initialState [headerRow]) [(1, sampleRecord)]
          DispatchOutcome.success).2.sendCalls = 1) ∧
      (mainRun (initialState [headerRow]) [(1, sampleRecord)]
        DispatchOutcome.success).2.tempFileExists = false) :=
  ⟨by decide,
   (report_dispatch_gating (initialState [headerRow]) [(1, sampleRecord)]
      DispatchOutcome.success).2 (by decide)⟩

/-! ## C9: completeness of the scan and the 100-result page cap -/

theorem queryEmails_eq_selected (mbox : List MailMessage) (now : Nat) :
    queryEmails mbox now = gmailList mbox (selectedQuery mbox) 100 := by
  unfold queryEmails selectedQuery
  by_cases h : (gmailList mbox querySignup 100).length = 0 <;> simp [h]

/-- C9 counterexample: with 101 unread matching messages, the scanner
(`maxResults: 100`, no pagination) returns only the first page:
`overflowMessage` is unread and matches the selected pattern yet its id
is missing from the result, refuting "every unread message matching the
selected subject pattern appears in the result, with no upper bound".
-/
theorem scanner_misses_message_101 :
    overflowMessage ∈ bigMailbox ∧
    matchesQuery querySignup overflowMessage = true ∧
    overflowMessage.id ∉ queryEmails bigMailbox 0 := by
  decide

/-- C9 amended: the scanner is complete only up to the 100-result page
cap — whenever at most 100 messages match the selected pattern, every
matching unread message's id appears in the result; runs with more
matches are truncated to the first 100. -/
theorem scanner_complete_up_to_page_cap
    (mbox : List MailMessage) (now : Nat)
    (hlen : (mbox.filter (matchesQuery (selectedQuery mbox))).length ≤ 100) :
    ∀ m ∈ mbox, matchesQuery (selectedQuery mbox) m = true →
      m.id ∈ queryEmails mbox now := by
  intro m hm hq
  rw [queryEmails_eq_selected]
  unfold gmailList
  rw [List.take_of_length_le]
  · exact List.mem_map_of_mem _ (List.mem_filter.mpr ⟨hm, hq⟩)
  · simpa using hlen

/-- Witness for C9 (amended): a two-message mailbox is under the cap,
and the stale unread message's id is returned. -/
theorem scanner_complete_up_to_page_cap_witness :
    ((([staleMessage] : List MailMessage)).filter
        (matchesQuery (selectedQuery [staleMessage]))).length ≤ 100 ∧
    staleMessage.id ∈ queryEmails [staleMessage] lateNow :=
  ⟨by decide,
   scanner_complete_up_to_page_cap [staleMessage] lateNow (by decide)
     staleMessage (by decide) (by decide)⟩

/-! ## C5: extraction on bodies containing well-formed labeled rows

A well-formed two-cell table row for a label is
`<td valign="top">LABEL</td>` + whitespace + `<td>` + value + `</td>`,
exactly the shape the patterns of src/index.js lines 142-146 accept.
-/

theorem ciStrip_self (p s : List Char) : ciStrip p (p ++ s) = some s := by
  induction p with
  | nil => rfl
  | cons c cs ih => simp [ciStrip, ciEq, ih]

theorem takeWhile_all_append (p : Char → Bool) (a : List Char) (b : Char)
    (t : List Char) (ha : ∀ c ∈ a, p c = true) (hb : p b = false) :
    (a ++ b :: t).takeWhile p = a := by
  induction a with
  | nil => simp [List.takeWhile_cons, hb]
  | cons x xs ih =>
    have hx : p x = true := ha x (by simp)
    simp only [List.cons_append, List.takeWhile_cons, hx, if_true]
    rw [ih (fun c hc => ha c (by simp [hc]))]

theorem dropWhile_all_append (p : Char → Bool) (a : List Char) (b : Char)
    (t : List Char) (ha : ∀ c ∈ a, p c = true) (hb : p b = false) :
    (a ++ b :: t).dropWhile p = b :: t := by
  induction a with
  | nil => simp [List.dropWhile_cons, hb]
  | cons x xs ih =>
    have hx : p x = true := ha x (by simp)
    simp only [List.cons_append, List.dropWhile_cons, hx, if_true]
    exact ih (fun c hc => ha c (by simp [hc]))

theorem matchAt_mkRow (label ws v rest : List Char)
    (hws : ∀ c ∈ ws, jsSpace c = true)
    (hv : v ≠ [])
    (hlt : ∀ c ∈ v, (c != '<') = true) :
    matchAt label (mkRow label ws v ++ rest) = some v := by
  have e1 : mkRow label ws v ++ rest =
      (tdOpen ++ label ++ tdClose) ++
        (ws ++ ('<' :: ('t' :: 'd' :: '>' :: (v ++ (tdClose ++ rest))))) := by
    simp [mkRow, cellOpen, List.append_assoc]
  have e2 : (ws ++ ('<' :: ('t' :: 'd' :: '>' :: (v ++ (tdClose ++ rest))))
      ).dropWhile jsSpace =
      '<' :: ('t' :: 'd' :: '>' :: (v ++ (tdClose ++ rest))) :=
    dropWhile_all_append jsSpace ws '<' _ hws (by decide)
  have e3 : ciStrip cellOpen
      ('<' :: ('t' :: 'd' :: '>' :: (v ++ (tdClose ++ rest)))) =
      some (v ++ (tdClose ++ rest)) :=
    ciStrip_self cellOpen (v ++ (tdClose ++ rest))
  have e4 : (v ++ (tdClose ++ rest)).takeWhile (fun c => c != '<') = v :=
    takeWhile_all_append _ v '<' _ hlt (by decide)
  have e5 : (v ++ (tdClose ++ rest)).dropWhile (fun c => c != '<') =
      tdClose ++ rest :=
    dropWhile_all_append _ v '<' _ hlt (by decide)
  have e6 : v.isEmpty = false := by
    cases v with
    | nil => exact absurd rfl hv
    | cons x xs => rfl
  rw [e1]
  unfold matchAt
  rw [ciStrip_self]
  simp only [e2, e3, e4, e5, e6, Bool.false_eq_true, if_false, ciStrip_self]

theorem matchAt_headMatches (label s v : List Char)
    (h : matchAt label s = some v) : headMatches label s = true := by
  unfold headMatches
  unfold matchAt at h
  cases hc : ciStrip (tdOpen ++ label ++ tdClose) s with
  | none => rw [hc] at h; exact absurd h (by simp)
  | some s1 => simp [hc]

theorem matchAt_nil (label : List Char) : matchAt label [] = none := by
  unfold matchAt
  have h : ciStrip (tdOpen ++ label ++ tdClose) [] = none := rfl
  rw [h]

theorem firstMatch_of_unique (label v : List Char) :
    ∀ body target : List Char, target <:+ body →
      (∀ s ∈ body.tails, headMatches label s = true → s = target) →
      matchAt label target = some v →
      firstMatch label body = some v := by
  intro body
  induction body with
  | nil =>
    intro target hsuf huniq hm
    rw [List.suffix_nil.mp hsuf, matchAt_nil] at hm
    exact absurd hm (by simp)
  | cons c cs ih =>
    intro target hsuf huniq hm
    cases hma : matchAt label (c :: cs) with
    | some w =>
      have heq : c :: cs = target :=
        huniq (c :: cs) (by rw [List.mem_tails])
          (matchAt_headMatches label (c :: cs) w hma)
      rw [← heq] at hm
      simp [firstMatch, hma, hma ▸ hm]
    | none =>
      have hne : target ≠ c :: cs := by
        intro he
        rw [he, hma] at hm
        exact absurd hm (by simp)
      have hsuf' : target <:+ cs := by
        rcases List.suffix_cons_iff.mp hsuf with h1 | h2
        · exact absurd h1 hne
        · exact h2
      have huniq' : ∀ s ∈ cs.tails, headMatches label s = true →
          s = target := by
        intro s hs hh
        refine huniq s ?_ hh
        rw [List.tails_cons]
        exact List.mem_cons_of_mem _ hs
      simp only [firstMatch, hma]
      exact ih target hsuf' huniq' hm

theorem extractField_of_unique_row (label ws v rest body : List Char)
    (hsuf : mkRow label ws v ++ rest <:+ body)
    (huniq : ∀ s ∈ body.tails, headMatches label s = true →
      s = mkRow label ws v ++ rest)
    (hws : ∀ c ∈ ws, jsSpace c = true) (hv : v ≠ [])
    (hlt : ∀ c ∈ v, (c != '<') = true) :
    extractField label body = jsTrim v := by
  unfold extractField
  rw [firstMatch_of_unique label v body (mkRow label ws v ++ rest) hsuf huniq
    (matchAt_mkRow label ws v rest hws hv hlt)]

/-- C5 amended: on a body in which each label's pattern head
`<td valign="top">LABEL</td>` occurs (case-insensitively) at exactly
one position, namely at a well-formed two-cell row whose value cell is
non-empty and markup-free, extraction returns each field equal to the
value-cell contents with surrounding whitespace stripped — provided the
stripped contents are non-empty (a whitespace-only cell instead yields
the sentinel "Not provided", the correction the counterexample forces).
-/
theorem extraction_yields_trimmed_cells (body : List Char) (t : Nat)
    (wsN vN restN wsP vP restP wsE vE restE : List Char)
    (hsufN : mkRow nameLabel wsN vN ++ restN <:+ body)
    (huniqN : ∀ s ∈ body.tails, headMatches nameLabel s = true →
      s = mkRow nameLabel wsN vN ++ restN)
    (hwsN : ∀ c ∈ wsN, jsSpace c = true) (hvN : vN ≠ [])
    (hltN : ∀ c ∈ vN, (c != '<') = true) (htrN : jsTrim vN ≠ [])
    (hsufP : mkRow phoneLabel wsP vP ++ restP <:+ body)
    (huniqP : ∀ s ∈ body.tails, headMatches phoneLabel s = true →
      s = mkRow phoneLabel wsP vP ++ restP)
    (hwsP : ∀ c ∈ wsP, jsSpace c = true) (hvP : vP ≠ [])
    (hltP : ∀ c ∈ vP, (c != '<') = true) (htrP : jsTrim vP ≠ [])
    (hsufE : mkRow emailLabel wsE vE ++ restE <:+ body)
    (huniqE : ∀ s ∈ body.tails, headMatches emailLabel s = true →
      s = mkRow emailLabel wsE vE ++ restE)
    (hwsE : ∀ c ∈ wsE, jsSpace c = true) (hvE : vE ≠ [])
    (hltE : ∀ c ∈ vE, (c != '<') = true) (htrE : jsTrim vE ≠ []) :
    (extractSignupInfo body t).name = String.mk (jsTrim vN) ∧
    (extractSignupInfo body t).phone = String.mk (jsTrim vP) ∧
    (extractSignupInfo body t).email = String.mk (jsTrim vE) := by
  refine ⟨?_, ?_, ?_⟩
  · show orSentinel (extractField nameLabel body) = _
    rw [extractField_of_unique_row nameLabel wsN vN restN body hsufN huniqN
      hwsN hvN hltN]
    unfold orSentinel
    simp [htrN]
  · show orSentinel (extractField phoneLabel body) = _
    rw [extractField_of_unique_row phoneLabel wsP vP restP body hsufP huniqP
      hwsP hvP hltP]
    unfold orSentinel
    simp [htrP]
  · show orSentinel (extractField emailLabel body) = _
    rw [extractField_of_unique_row emailLabel wsE vE restE body hsufE huniqE
      hwsE hvE hltE]
    unfold orSentinel
    simp [htrE]

/-- C5 counterexample: on `blankBody` — a body containing all three
labeled two-cell rows — the name cell holds a single space, whose
trimmed contents are the empty string; the claim then requires the name
field to equal "", but the source's `extractedInfo.name || 'Not
provided'` (line 175) turns the trimmed empty string into the sentinel.
-/
theorem whitespace_cell_yields_sentinel :
    (extractSignupInfo blankBody 0).name = "Not provided" ∧
    (extractSignupInfo blankBody 0).name ≠ String.mk (jsTrim [' ']) := by
  decide

set_option maxRecDepth 8000 in
/-- Witness for C5 at `fullBody`: each hypothesis is discharged by
computation and each field equals its trimmed cell contents. -/
theorem extraction_yields_trimmed_cells_witness :
    (extractSignupInfo fullBody 0).name =
      String.mk (jsTrim (" John Doe ".toList)) ∧
    (extractSignupInfo fullBody 0).phone =
      String.mk (jsTrim ("+255 747 000 000".toList)) ∧
    (extractSignupInfo fullBody 0).email =
      String.mk (jsTrim ("j@x.org".toList)) :=
  extraction_yields_trimmed_cells fullBody 0
    [' '] (" John Doe ".toList) afterNameRow
    [] ("+255 747 000 000".toList) afterPhoneRow
    ['\n'] ("j@x.org".toList) afterEmailRow
    (by decide) (by decide) (by decide) (by decide) (by decide) (by decide)
    (by decide) (by decide) (by decide) (by decide) (by decide) (by decide)
    (by decide) (by decide) (by decide) (by decide) (by decide) (by decide)

end GrowthTrack
